import Mathlib

/-!
Shallow embedding of `ilive_feed.py` (InvestingLive digest pipeline) and proofs
of the specification claims about it.

Conventions of the embedding:
* Python `str` is Lean `String` (one `Char` per Unicode code point, matching
  Python's `len`/slicing semantics); the text involved is ASCII, so per-char
  `Char.toLower`/`Char.toUpper` model Python's `lower()`/`upper()`.
* Python `None`-able values are `Option`; Python truthiness on strings and
  integers is modelled explicitly (`pyOrStr`, `pyTruthyInt`, ...).
* Third-party library calls (httpx transport, `dateutil` parsing, BeautifulSoup
  text extraction, `urlparse`) are abstracted as function parameters: theorems
  quantify over every behaviour of those libraries.
* Wall-clock instants handled by `filter_items` are integers (minutes), so a
  `timedelta(hours=h)` is `60 * h`.
-/

namespace ILive

/-- Python str whitespace characters (ASCII subset used by `strip`/`rstrip`). -/
def pyIsSpace (c : Char) : Bool :=
  c = ' ' || c = '\t' || c = '\n' || c = '\r' || c = '\x0b' || c = '\x0c'

/-- Characters of `s.rstrip()`. -/
def rstripChars (l : List Char) : List Char :=
  (l.reverse.dropWhile pyIsSpace).reverse

/-- Characters of `s.strip()`. -/
def stripChars (l : List Char) : List Char :=
  rstripChars (l.dropWhile pyIsSpace)

/-- Python `s.strip()`. -/
def pyStrip (s : String) : String := ⟨stripChars s.data⟩

/-- Python `s.rstrip()`. -/
def pyRstrip (s : String) : String := ⟨rstripChars s.data⟩

/-- Python `s[:n]` for a nonnegative count. -/
def pyTake (s : String) (n : Nat) : String := ⟨s.data.take n⟩

/-- Python `a or dflt` where `a : Optional[str]` and both `None` and `""` are
falsy. -/
def pyOrStr (a : Option String) (dflt : String) : String :=
  match a with
  | some s => if s = "" then dflt else s
  | none => dflt

/-- Python `a or b` on optional header/cache values (`None` and `""` falsy),
as in `r.headers.get("ETag") or cache.get("etag")`. -/
def pyOrOpt (a b : Option String) : Option String :=
  match a with
  | some s => if s = "" then b else some s
  | none => b

/-- Python truthiness of an `Optional[int]`: `None` and `0` are falsy. -/
def pyTruthyInt : Option Int → Bool
  | none => false
  | some n => n ≠ 0

/-- Python list slice `l[:n]` for an arbitrary integer `n` (negative `n`
drops `-n` elements from the end). -/
def pySliceTake (n : Int) (l : List α) : List α :=
  if 0 ≤ n then l.take n.toNat else l.take (l.length - (-n).toNat)

/-! ## Cache records and the fetch loop (`polite_fetch`, lines 66-104)

The cache record mirrors the JSON object `{etag, last_modified, fetched_at}`.
The httpx transport is a function from the (1-based) attempt number to the
response obtained on that attempt; a raised `httpx.HTTPError` during the
request is `Resp.transportError`.  The loop's sleeps do not affect the result
and are not modelled.  The value returned by `polite_fetch` is `retNone`
(Python `return None`, reached both on a 304 and when the `for` loop runs out),
`retBody` (a 200 with the body text) or `raiseError` (an exception of the final
attempt propagating out).  The second component is the list of `_save_cache`
calls performed, in order. -/

/-- Revalidation cache record, keys `etag` / `last_modified` / `fetched_at`. -/
structure Cache where
  etag : Option String
  last_modified : Option String
  fetched_at : Option String
deriving DecidableEq

/-- One response of the httpx transport for one attempt: an HTTP status with
the `ETag` and `Last-Modified` headers and the body text, or a raised
transport-level `httpx.HTTPError`. -/
inductive Resp where
  | status (code : Nat) (etagHdr lastModHdr : Option String) (body : String)
  | transportError
deriving DecidableEq

/-- Value produced by `polite_fetch`: `return None`, `return r.text`, or an
exception propagating to the caller. -/
inductive FetchOutcome where
  | retNone
  | retBody (text : String)
  | raiseError
deriving DecidableEq

/-- Body of the `for attempt in range(1, max_retries + 1)` loop of
`polite_fetch`, recursing on the number of remaining iterations. On a 200 the
new cache record is built from the response headers with fallback to the
loaded cache and saved; httpx's `raise_for_status` raises exactly on non-2xx
statuses, and a raised error on the final attempt (`attempt == max_retries`)
propagates. Falling off the loop is `return None`. -/
def polite_fetch_go (transport : Nat → Resp) (maxRetries : Nat) (cache : Cache)
    (now : String) : Nat → Nat → FetchOutcome × List Cache
  | _, 0 => (.retNone, [])
  | attempt, remaining + 1 =>
    match transport attempt with
    | .transportError =>
      if attempt = maxRetries then (.raiseError, [])
      else polite_fetch_go transport maxRetries cache now (attempt + 1) remaining
    | .status code etagHdr lastModHdr body =>
      if code = 304 then (.retNone, [])
      else if code = 200 then
        let newCache : Cache :=
          { etag := pyOrOpt etagHdr cache.etag
            last_modified := pyOrOpt lastModHdr cache.last_modified
            fetched_at := some now }
        (.retBody body, [newCache])
      else if code = 429 ∨ code = 503 then
        polite_fetch_go transport maxRetries cache now (attempt + 1) remaining
      else if 200 ≤ code ∧ code < 300 then
        polite_fetch_go transport maxRetries cache now (attempt + 1) remaining
      else if attempt = maxRetries then (.raiseError, [])
      else polite_fetch_go transport maxRetries cache now (attempt + 1) remaining

/-- `polite_fetch(url, max_retries)`: runs the retry loop starting at attempt 1
with `maxRetries` iterations available, over the cache record loaded at entry.
`now` is the `datetime.now(timezone.utc).isoformat()` string stored as
`fetched_at`. -/
def polite_fetch (cache : Cache) (transport : Nat → Resp) (maxRetries : Nat)
    (now : String) : FetchOutcome × List Cache :=
  polite_fetch_go transport maxRetries cache now 1 maxRetries

/-- Responses on which the loop continues to the next attempt when this is not
the final attempt: everything except a 200 or a 304. -/
def continuesLoop : Resp → Bool
  | .transportError => true
  | .status code _ _ _ => decide (¬(code = 200 ∨ code = 304))

/-- Responses that raise out of `polite_fetch` when received on the final
attempt: a transport error, or a status outside 2xx other than 304/429/503
(on which `raise_for_status` raises and the handler re-raises). -/
def raisesFinal : Resp → Bool
  | .transportError => true
  | .status code _ _ _ =>
    decide (¬(code = 304 ∨ code = 429 ∨ code = 503 ∨ (200 ≤ code ∧ code < 300)))

/-! ## Keyword tagging (`KEYWORD_TAGS`, `_extract_tags`, lines 23-38 and 126-137)

Each regular expression of `KEYWORD_TAGS` has the shape
`\b(alt1|alt2|...)\b` where every alternative is a literal over word
characters, spaces, `-` and `/` (the bounded repetitions `[- ]?` and `s?` are
expanded into the finitely many literals they generate).  `re.search` then
succeeds exactly when some alternative occurs in the text with a non-word
character (or the text boundary) on both sides, which is what
`occursWithBoundaries` decides. -/

/-- Word characters of the `\b` regex boundary (ASCII `\w`). -/
def isWordChar (c : Char) : Bool := c.isAlphanum || c = '_'

/-- Whether `pat` is a prefix of `s` and the character of `s` right after it
(if any) is a non-word character, i.e. a match at this position ends on a
word boundary (every alternative ends in a word character). -/
def prefixWithEndBoundary (pat s : List Char) : Bool :=
  match pat, s with
  | [], [] => true
  | [], c :: _ => !isWordChar c
  | _ :: _, [] => false
  | p :: ps, c :: cs => p = c && prefixWithEndBoundary ps cs

/-- Whether `pat` occurs somewhere in `s` with word boundaries on both sides;
`prev` is the character immediately before `s` (none at the start of the
text). Every alternative starts in a word character, so the left `\b` holds
exactly when `prev` is absent or a non-word character. -/
def occursWithBoundaries (pat : List Char) (prev : Option Char) (s : List Char) : Bool :=
  match s with
  | [] => (match prev with | none => true | some c => !isWordChar c) && prefixWithEndBoundary pat []
  | c :: cs =>
    ((match prev with | none => true | some p => !isWordChar p) && prefixWithEndBoundary pat (c :: cs))
    || occursWithBoundaries pat (some c) cs

/-- `re.search(pat, s)` for a pattern `\b(alt1|...|altk)\b` with the
alternatives expanded to literal strings: some alternative occurs in `s`
between word boundaries. -/
def reSearchAlts (alts : List String) (s : List Char) : Bool :=
  alts.any (fun a => occursWithBoundaries a.data none s)

/-- The fixed ordered table `KEYWORD_TAGS`, each pattern expanded to the
literal alternatives it matches (in the source's dictionary order, which is
insertion order and therefore deterministic). -/
def KEYWORD_TAGS : List (List String × String) :=
  [ (["xau", "gold"], "#XAU")
  , (["silver", "xag"], "#XAG")
  , (["dxy", "us dollar", "greenback", "usd index", "dollar index"], "#DXY")
  , (["eur/usd", "eurusd", "euro"], "#EURUSD")
  , (["usd/jpy", "usdjpy", "yen"], "#USDJPY")
  , (["gbp/usd", "gbpusd", "sterling", "pound"], "#GBPUSD")
  , (["wti", "brent", "crude", "oil"], "#OIL")
  , (["copper"], "#HG")
  , (["10year", "10-year", "10 year", "10y", "ust10", "ust 10", "ten-year",
      "ten year", "treasury yield", "yield", "yields"], "#UST10Y")
  , (["2year", "2-year", "2 year", "2y", "ust2"], "#UST2Y")
  , (["cpi", "ppi", "pce", "core pce", "payrolls", "nfp", "unemployment"], "#DATA")
  , (["fed", "powell", "fomc", "dot plot", "hike", "cut", "rate decision"], "#Fed")
  , (["ecb", "lagarde", "boj", "boe", "snb", "rba", "boc"], "#CB")
  , (["riskon", "risk-on", "risk on", "riskoff", "risk-off", "risk off",
      "sentiment"], "#RISK") ]

/-- The `seen`/`ordered` de-duplication loop at the end of `_extract_tags`:
keeps the first occurrence of each tag. -/
def pyDedupGo (seen : List String) : List String → List String
  | [] => []
  | t :: ts => if t ∈ seen then pyDedupGo seen ts else t :: pyDedupGo (t :: seen) ts

/-- Python `text.lower()` (per-character, ASCII). -/
def pyLower (s : String) : List Char := s.data.map Char.toLower

/-- `_extract_tags(text)`: collect, in table order, the tag of every pattern
that matches the lowercased text, then drop duplicates keeping first
occurrences. -/
def extract_tags (text : String) : List String :=
  pyDedupGo []
    (((KEYWORD_TAGS.filter (fun p => reSearchAlts p.1 (pyLower text)))).map Prod.snd)

/-! ## Summary normalization (`_html_to_text`, lines 139-153) -/

/-- Maximum summary length before truncation. -/
def MAX_SUMMARY_CHARS : Nat := 220

/-- `_html_to_text(html)`.  The BeautifulSoup processing of lines 142-150
(list-marker insertion, visible-text extraction, entity unescaping and
whitespace collapsing) is abstracted as the function `pre`; the guard of line
140 and the truncation of lines 151-152 are modelled exactly. -/
def html_to_text (pre : String → String) (html : String) : String :=
  if html = "" then ""
  else
    let text := pre html
    if MAX_SUMMARY_CHARS < text.length then
      pyRstrip (pyTake text MAX_SUMMARY_CHARS) ++ "…"
    else text

/-! ## Section tags (`_section_tag_from_url`, lines 155-163) -/

/-- Characters of `path.strip("/")`. -/
def stripSlash (l : List Char) : List Char :=
  ((l.dropWhile (· = '/')).reverse.dropWhile (· = '/')).reverse

/-- First path segment: `(path.strip("/").split("/", 1) + [""])[0]`. -/
def firstSegment (path : String) : List Char :=
  (stripSlash path.data).takeWhile (fun c => c ≠ '/')

/-- `_section_tag_from_url(link)`: `urlparse(link).path` is abstracted as
`pathOf`; the first segment of the stripped path, if non-empty, becomes
`f"#{first.replace('-', '_')}".upper()`. -/
def section_tag_from_url (pathOf : String → String) (link : String) : Option String :=
  let first := firstSegment (pathOf link)
  if first.isEmpty then none
  else some ⟨('#' :: first.map (fun c => if c = '-' then '_' else c)).map Char.toUpper⟩

/-! ## Items and the parse/normalize pipeline (`parse_feed`, lines 40-46 and
165-186)

`feedparser.parse(xml_text).entries` is abstracted: `parse_feed` consumes the
list of raw entries directly (each field is `e.get(...)`, so `Option`-valued).
The datetime library calls are gathered in `Ext`: `dtparse` is
`dateutil.parser.parse` (`none` when it raises), `fromStruct` is
`datetime(*struct[:6], tzinfo=utc)` (`none` when it raises), and `toNY`
is `_to_ny(dt).strftime("%Y-%m-%d %H:%M")`, which is total on datetimes. -/

/-- Normalized feed item (the `Item` dataclass). -/
structure Item where
  title : String
  link : String
  published_ny : Option String
  tags : List String
  summary : String
deriving DecidableEq

/-- Raw feedparser entry: the fields `parse_feed` reads via `e.get`. A
`published_parsed`/`updated_parsed` value is the `time.struct_time` as a list
of naturals. -/
structure RawEntry where
  title : Option String := none
  summary : Option String := none
  link : Option String := none
  published : Option String := none
  updated : Option String := none
  published_parsed : Option (List Nat) := none
  updated_parsed : Option (List Nat) := none
deriving DecidableEq

/-- Abstracted third-party functions used by the pipeline, over an opaque
datetime type `δ`: permissive string parsing, struct-time fallback
construction, New-York formatting, URL path extraction and the
BeautifulSoup/entity/whitespace text normalization of `_html_to_text`. -/
structure Ext (δ : Type) where
  dtparse : String → Option δ
  fromStruct : List Nat → Option δ
  toNY : δ → String
  pathOf : String → String
  pre : String → String

/-- `_coerce_dt(s, fallback_struct)` (lines 111-124) specialised to the string
argument `parse_feed` passes (never Python `None`, possibly `""`). -/
def coerce_dt (E : Ext δ) (s : String) (fb : Option (List Nat)) : Option δ :=
  if s = "" ∧ fb = none then none
  else
    match (if s = "" then none else E.dtparse s) with
    | some d => some d
    | none =>
      match fb with
      | some l => E.fromStruct l
      | none => none

/-- The text `f"{title} {summary}"` over which keyword tags are extracted. -/
def allText (E : Ext δ) (e : RawEntry) : String :=
  pyStrip (e.title.getD "") ++ " " ++ html_to_text E.pre (pyOrStr e.summary "")

/-- Construction of one `Item` from one raw entry (loop body of `parse_feed`,
lines 168-184). -/
def mkItem (E : Ext δ) (e : RawEntry) : Item :=
  let dt_raw := pyOrStr e.published (pyOrStr e.updated "")
  let dt_struct := match e.published_parsed with
    | some l => some l
    | none => e.updated_parsed
  let dt := coerce_dt E dt_raw dt_struct
  let dt_ny := dt.map E.toNY
  let title := pyStrip (e.title.getD "")
  let summary := html_to_text E.pre (pyOrStr e.summary "")
  let link := pyStrip (e.link.getD "")
  let tags := extract_tags (allText E e)
  let tags := match section_tag_from_url E.pathOf link with
    | some sec => if sec ≠ "" ∧ sec ∉ tags then sec :: tags else tags
    | none => tags
  { title := title, link := link, published_ny := dt_ny, tags := tags,
    summary := summary }

/-- Sort key `x.published_ny or ""`. -/
def sortKey (x : Item) : String := x.published_ny.getD ""

/-- `parse_feed(xml_text)` over the abstracted entry list: build the items,
then `items.sort(key=lambda x: x.published_ny or "", reverse=True)` — a
stable descending sort by `sortKey`. -/
def parse_feed (E : Ext δ) (entries : List RawEntry) : List Item :=
  (entries.map (mkItem E)).mergeSort (fun a b => decide (sortKey b ≤ sortKey a))

/-! ## Filtering (`filter_items`, lines 188-197) and `get_digest`
(lines 234-240)

`dtparse.parse(it.published_ny).replace(tzinfo=NY_TZ)` and
`datetime.now(NY_TZ)` are modelled as integer minutes: `parseNY` is the
abstracted parse of a `published_ny` string and `now` the current NY time, so
`cutoff = now - 60 * hours`. -/

/-- `filter_items(items, hours, limit)`: when `hours` is truthy keep the items
whose truthy `published_ny` parses to a time `≥ cutoff`; when `limit` is
truthy keep `items[:limit]`. -/
def filter_items (parseNY : String → Int) (now : Int) (items : List Item)
    (hours limit : Option Int) : List Item :=
  let items := if pyTruthyInt hours then
      items.filter (fun it =>
        match it.published_ny with
        | some s => if s = "" then false else decide (now - 60 * hours.getD 0 ≤ parseNY s)
        | none => false)
    else items
  if pyTruthyInt limit then pySliceTake (limit.getD 0) items else items

/-- `get_digest(url, hours, limit)` over the outcome of `polite_fetch`: a
propagated fetch exception is `Except.error`; `return None` yields the empty
list; a body is parsed (`feedEntries` abstracts `feedparser`) and filtered. -/
def get_digest (E : Ext δ) (feedEntries : String → List RawEntry)
    (parseNY : String → Int) (now : Int) (outcome : FetchOutcome)
    (hours limit : Option Int) : Except Unit (List Item) :=
  match outcome with
  | .raiseError => .error ()
  | .retNone => .ok []
  | .retBody xml =>
    .ok (filter_items parseNY now (parse_feed E (feedEntries xml)) hours limit)

/-! ## Helper lemmas -/

theorem polite_fetch_go_raises (transport : Nat → Resp) (maxRetries : Nat)
    (cache : Cache) (now : String) :
    ∀ fuel attempt, attempt + fuel = maxRetries + 1 → 1 ≤ attempt →
      attempt ≤ maxRetries →
      (∀ k, attempt ≤ k → k < maxRetries → continuesLoop (transport k) = true) →
      raisesFinal (transport maxRetries) = true →
      polite_fetch_go transport maxRetries cache now attempt fuel =
        (.raiseError, []) := by
  intro fuel
  induction fuel with
  | zero => intro attempt h1 _ h3 _ _; omega
  | succ f ih =>
    intro attempt h1 h2 h3 hcont hfin
    by_cases hlast : attempt = maxRetries
    · subst hlast
      cases hr : transport attempt with
      | transportError => simp [polite_fetch_go, hr]
      | status code etagHdr lastModHdr body =>
        rw [hr] at hfin
        simp only [raisesFinal, decide_eq_true_eq] at hfin
        push_neg at hfin
        obtain ⟨h304, h429, h503, h2xx⟩ := hfin
        have h200 : code ≠ 200 := by
          intro h; subst h; exact absurd (h2xx (by omega)) (by omega)
        simp only [polite_fetch_go, hr]
        rw [if_neg h304, if_neg h200,
          if_neg (by rintro (h | h) <;> [exact h429 h; exact h503 h]),
          if_neg (by rintro ⟨ha, hb⟩; exact absurd (h2xx ha) (by omega))]
        simp
    · have hnext : attempt + 1 ≤ maxRetries := by omega
      have hIH := ih (attempt + 1) (by omega) (by omega) hnext
        (fun k hk1 hk2 => hcont k (by omega) hk2) hfin
      have hc := hcont attempt le_rfl (by omega)
      cases hr : transport attempt with
      | transportError =>
        simp only [polite_fetch_go, hr]
        rw [if_neg hlast]
        exact hIH
      | status code etagHdr lastModHdr body =>
        rw [hr] at hc
        simp only [continuesLoop, decide_eq_true_eq] at hc
        push_neg at hc
        obtain ⟨h200, h304⟩ := hc
        simp only [polite_fetch_go, hr]
        rw [if_neg h304, if_neg h200]
        split_ifs <;> exact hIH

/-! ## Claim theorems for the fetcher -/

/-- C1 (counterexample): a transport answering 503 on all five attempts makes
`polite_fetch` exhaust its retries and fall off the loop, returning the
value `None` — exactly the NoChange/no-body result, not a raised Fetch Error,
contradicting the claim that exhausting retries without a 200/304 always
fails with a Fetch Error distinct from NoChange. -/
theorem c1_exhausted_503_returns_nochange_value :
    polite_fetch ⟨none, none, none⟩ (fun _ => .status 503 none none "") 5 "t" =
      (.retNone, []) ∧
    FetchOutcome.retNone ≠ FetchOutcome.raiseError := by
  constructor
  · rfl
  · intro h; cases h

/-- C1 (amended): if `polite_fetch` exhausts its `maxRetries` attempts, none
of the earlier attempts receives a 200 or 304, and the final attempt fails
with a transport error or an HTTP status outside 2xx other than 304/429/503,
then the call raises a Fetch Error (an exception, distinct from the NoChange
return value) and performs no cache save. -/
theorem c1_exhausted_raises_fetch_error (cache : Cache) (transport : Nat → Resp)
    (maxRetries : Nat) (now : String) (hmax : 1 ≤ maxRetries)
    (hcont : ∀ k, 1 ≤ k → k < maxRetries → continuesLoop (transport k) = true)
    (hfin : raisesFinal (transport maxRetries) = true) :
    polite_fetch cache transport maxRetries now = (.raiseError, []) :=
  polite_fetch_go_raises transport maxRetries cache now maxRetries 1
    (by omega) le_rfl hmax hcont hfin

/-- C1 (witness): a transport giving 503 on attempt 1 and 404 on attempt 2
with `maxRetries = 2` raises a Fetch Error. -/
theorem c1_exhausted_raises_fetch_error_witness :
    1 ≤ 2 ∧
    (∀ k, 1 ≤ k → k < 2 →
      continuesLoop ((fun n => if n = 2 then Resp.status 404 none none ""
        else Resp.status 503 none none "") k) = true) ∧
    raisesFinal ((fun n => if n = 2 then Resp.status 404 none none ""
      else Resp.status 503 none none "") 2) = true ∧
    polite_fetch ⟨none, none, none⟩
      (fun n => if n = 2 then Resp.status 404 none none ""
        else Resp.status 503 none none "") 2 "t" = (.raiseError, []) := by
  refine ⟨by omega, ?_, by decide, ?_⟩
  · intro k hk1 hk2
    have : k = 1 := by omega
    subst this
    decide
  · exact c1_exhausted_raises_fetch_error ⟨none, none, none⟩ _ 2 "t" (by omega)
      (fun k hk1 hk2 => by
        have : k = 1 := by omega
        subst this
        decide)
      (by decide)

/-- C9: when the transport answers the first attempt with a 304, the fetch
returns the NoChange value (`None`, no body) immediately and performs no
cache save at all — the stored record is left completely unmodified. -/
theorem c9_304_nochange_cache_untouched (cache : Cache) (transport : Nat → Resp)
    (maxRetries : Nat) (now : String) (etagHdr lastModHdr : Option String)
    (body : String) (hmax : 1 ≤ maxRetries)
    (h304 : transport 1 = .status 304 etagHdr lastModHdr body) :
    polite_fetch cache transport maxRetries now = (.retNone, []) := by
  obtain ⟨m, rfl⟩ : ∃ m, maxRetries = m + 1 := ⟨maxRetries - 1, by omega⟩
  simp [polite_fetch, polite_fetch_go, h304]

/-- C9 (witness): a stored entity tag and a transport answering 304 on the
first attempt yield the NoChange value with an empty save log. -/
theorem c9_304_nochange_cache_untouched_witness :
    1 ≤ 1 ∧
    (fun _ : Nat => Resp.status 304 none none "") 1 =
      Resp.status 304 none none "" ∧
    polite_fetch ⟨some "W/\x22abc\x22", none, none⟩
      (fun _ => Resp.status 304 none none "") 1 "t" = (.retNone, []) :=
  ⟨le_rfl, rfl,
    c9_304_nochange_cache_untouched ⟨some "W/\x22abc\x22", none, none⟩
      (fun _ => Resp.status 304 none none "") 1 "t" none none "" le_rfl rfl⟩

/-! ## Claim theorems for filtering and the digest -/

theorem pySliceTake_length_le (n : Int) (l : List α) (hn : 0 < n) :
    ((pySliceTake n l).length : Int) ≤ n := by
  unfold pySliceTake
  rw [if_pos (le_of_lt hn)]
  have h := List.length_take_le n.toNat l
  omega

theorem mem_of_mem_pySliceTake {a : α} {n : Int} {l : List α}
    (h : a ∈ pySliceTake n l) : a ∈ l := by
  unfold pySliceTake at h
  split_ifs at h <;> exact List.mem_of_mem_take h

/-- C2 (counterexample): with `limit = 0` (a falsy integer, so the slice is
skipped) a one-element list passes through unchanged and the output length
exceeds the limit, contradicting `len(filter(items, hours, limit)) <= limit`
for every integer limit. -/
theorem c2_limit_zero_counterexample :
    ¬ (((filter_items (fun _ => 0) 0 [⟨"t", "l", none, [], ""⟩] none
        (some 0)).length : Int) ≤ 0) := by
  decide

/-- C2 (amended): for every positive integer `limit`, the result of
`filter_items(items, hours, limit)` has length at most `limit`. -/
theorem c2_limit_bound (parseNY : String → Int) (now : Int) (items : List Item)
    (hours : Option Int) (limit : Int) (hpos : 0 < limit) :
    ((filter_items parseNY now items hours (some limit)).length : Int) ≤ limit := by
  have hT : pyTruthyInt (some limit) = true := by
    simp only [pyTruthyInt, decide_eq_true_eq]
    omega
  simp only [filter_items, hT, if_true, Option.getD_some]
  apply pySliceTake_length_le _ _ hpos

/-- C2 (witness): the amended bound at `limit = 1` on a concrete
two-element list. -/
theorem c2_limit_bound_witness :
    (0 : Int) < 1 ∧
    ((filter_items (fun _ => 0) 0
        [⟨"a", "l", none, [], ""⟩, ⟨"b", "m", none, [], ""⟩] none
        (some 1)).length : Int) ≤ 1 :=
  ⟨by decide,
    c2_limit_bound (fun _ => 0) 0
      [⟨"a", "l", none, [], ""⟩, ⟨"b", "m", none, [], ""⟩] none 1 (by decide)⟩

/-- C6: whenever an hours window is set (truthy `hours`), every item returned
by `filter_items` has a present `published_ny` whose parsed New York time is
at least `now` minus the window — so items lacking `published_ny` are
excluded. -/
theorem c6_window_filters_by_cutoff (parseNY : String → Int) (now : Int)
    (items : List Item) (h : Int) (limit : Option Int) (hh : h ≠ 0) :
    ∀ it ∈ filter_items parseNY now items (some h) limit,
      ∃ s, it.published_ny = some s ∧ now - 60 * h ≤ parseNY s := by
  intro it hit
  have hT : pyTruthyInt (some h) = true := by
    simp only [pyTruthyInt, decide_eq_true_eq]
    omega
  simp only [filter_items, hT, if_true, Option.getD_some] at hit
  have hmem : it ∈ items.filter (fun it =>
      match it.published_ny with
      | some s => if s = "" then false else decide (now - 60 * h ≤ parseNY s)
      | none => false) := by
    split at hit
    · exact mem_of_mem_pySliceTake hit
    · exact hit
  have hpred := (List.mem_filter.mp hmem).2
  cases hp : it.published_ny with
  | none => rw [hp] at hpred; cases hpred
  | some s =>
    rw [hp] at hpred
    simp only at hpred
    split_ifs at hpred
    exact ⟨s, rfl, of_decide_eq_true hpred⟩

/-- C6 (witness): with `hours = 1`, a concrete item dated in the window is
returned and satisfies the cutoff property. -/
theorem c6_window_filters_by_cutoff_witness :
    (1 : Int) ≠ 0 ∧
    (⟨"t", "l", some "2025-01-01 00:00", [], ""⟩ : Item) ∈
      filter_items (fun _ => 0) 0 [⟨"t", "l", some "2025-01-01 00:00", [], ""⟩]
        (some 1) none ∧
    ∃ s, (⟨"t", "l", some "2025-01-01 00:00", [], ""⟩ : Item).published_ny =
        some s ∧ (0 : Int) - 60 * 1 ≤ (fun _ => (0 : Int)) s :=
  ⟨by decide, by decide,
    c6_window_filters_by_cutoff (fun _ => 0) 0
      [⟨"t", "l", some "2025-01-01 00:00", [], ""⟩] 1 none (by decide)
      ⟨"t", "l", some "2025-01-01 00:00", [], ""⟩ (by decide)⟩

/-- C10: a NoChange fetch outcome makes `get_digest` return the empty item
list, and a successfully fetched body whose feed parses to zero entries
returns the empty list as well — the two cases are indistinguishable at the
interface. -/
theorem c10_nochange_empty_digest {δ : Type} (E : Ext δ)
    (feedEntries : String → List RawEntry) (parseNY : String → Int) (now : Int)
    (hours limit : Option Int) :
    get_digest E feedEntries parseNY now .retNone hours limit = .ok [] ∧
    ∀ xml, feedEntries xml = [] →
      get_digest E feedEntries parseNY now (.retBody xml) hours limit =
        .ok [] := by
  constructor
  · rfl
  · intro xml hx
    simp [get_digest, hx, parse_feed, filter_items, pySliceTake]

/-- Concrete instantiation of the abstracted external functions, over the
trivial datetime type. -/
def extUnit : Ext Unit :=
  ⟨fun _ => none, fun _ => none, fun _ => "", fun _ => "", fun s => s⟩

/-- C10 (witness): a feed body with zero entries produces the same empty
digest as a NoChange outcome. -/
theorem c10_nochange_empty_digest_witness :
    (fun _ : String => ([] : List RawEntry)) "" = [] ∧
    get_digest extUnit (fun _ => []) (fun _ => 0) 0 (.retBody "") none none =
      .ok [] ∧
    get_digest extUnit (fun _ => []) (fun _ => 0) 0 .retNone none none =
      .ok [] :=
  ⟨rfl,
    (c10_nochange_empty_digest extUnit (fun _ => []) (fun _ => 0) 0
      none none).2 "" rfl,
    (c10_nochange_empty_digest extUnit (fun _ => []) (fun _ => 0) 0
      none none).1⟩

/-! ## Claim theorem for summary truncation -/

theorem rstripChars_length_le (l : List Char) :
    (rstripChars l).length ≤ l.length := by
  unfold rstripChars
  rw [List.length_reverse]
  calc (l.reverse.dropWhile pyIsSpace).length
      ≤ l.reverse.length := (List.dropWhile_sublist pyIsSpace).length_le
    _ = l.length := List.length_reverse l

theorem pyRstrip_length_le (s : String) : (pyRstrip s).length ≤ s.length :=
  rstripChars_length_le s.data

/-- C5: for every behaviour of the HTML normalization and every input, the
summary produced by `_html_to_text` has at most `MAX_SUMMARY_CHARS + 1`
characters, and whenever truncation occurred (non-empty input whose
normalized text exceeds the maximum) the result ends with the ellipsis
glyph. -/
theorem c5_summary_truncation (pre : String → String) (html : String) :
    (html_to_text pre html).length ≤ MAX_SUMMARY_CHARS + 1 ∧
    (html ≠ "" → MAX_SUMMARY_CHARS < (pre html).length →
      ∃ t, html_to_text pre html = t ++ "…") := by
  unfold html_to_text
  by_cases h0 : html = ""
  · rw [if_pos h0]
    exact ⟨by simp [String.length], fun h => absurd h0 h⟩
  · rw [if_neg h0]
    by_cases h1 : MAX_SUMMARY_CHARS < (pre html).length
    · simp only [h1, if_true]
      constructor
      · rw [String.length_append]
        have h2 : (pyRstrip (pyTake (pre html) MAX_SUMMARY_CHARS)).length ≤
            MAX_SUMMARY_CHARS := by
          calc (pyRstrip (pyTake (pre html) MAX_SUMMARY_CHARS)).length
              ≤ (pyTake (pre html) MAX_SUMMARY_CHARS).length :=
                pyRstrip_length_le _
            _ ≤ MAX_SUMMARY_CHARS := List.length_take_le _ _
        have h3 : ("…" : String).length = 1 := rfl
        omega
      · exact fun _ _ => ⟨pyRstrip (pyTake (pre html) MAX_SUMMARY_CHARS), rfl⟩
    · rw [if_neg h1]
      exact ⟨by omega, fun _ h => absurd h h1⟩

set_option maxRecDepth 4096 in
/-- C5 (witness): a normalization producing 221 characters is truncated to at
most 221 characters and the result ends with the ellipsis glyph. -/
theorem c5_summary_truncation_witness :
    ("x" : String) ≠ "" ∧
    MAX_SUMMARY_CHARS <
      ((fun _ : String => String.mk (List.replicate 221 'a')) "x").length ∧
    ∃ t, html_to_text (fun _ => String.mk (List.replicate 221 'a')) "x" =
        t ++ "…" :=
  ⟨by decide, by decide,
    (c5_summary_truncation (fun _ => String.mk (List.replicate 221 'a'))
      "x").2 (by decide) (by decide)⟩

/-! ## Claim theorems for the normalizer: duplicate-free tags and sorting -/

theorem pyDedupGo_nodup (l : List String) :
    ∀ seen, (pyDedupGo seen l).Nodup ∧ ∀ t ∈ pyDedupGo seen l, t ∉ seen := by
  induction l with
  | nil => intro seen; simp [pyDedupGo]
  | cons a l ih =>
    intro seen
    by_cases ha : a ∈ seen
    · rw [pyDedupGo, if_pos ha]
      exact ih seen
    · rw [pyDedupGo, if_neg ha]
      refine ⟨List.nodup_cons.mpr ⟨fun hmem => ?_, (ih (a :: seen)).1⟩,
        fun t ht => ?_⟩
      · exact (ih (a :: seen)).2 a hmem (List.mem_cons_self a seen)
      · rcases List.mem_cons.mp ht with rfl | ht'
        · exact ha
        · exact fun hts =>
            (ih (a :: seen)).2 t ht' (List.mem_cons_of_mem _ hts)

theorem extract_tags_nodup (text : String) : (extract_tags text).Nodup :=
  (pyDedupGo_nodup _ []).1

theorem mkItem_tags_nodup {δ : Type} (E : Ext δ) (e : RawEntry) :
    (mkItem E e).tags.Nodup := by
  have h0 := extract_tags_nodup (allText E e)
  simp only [mkItem]
  cases hsec : section_tag_from_url E.pathOf (pyStrip (e.link.getD "")) with
  | none => exact h0
  | some sec =>
    dsimp only
    split_ifs with hs
    · exact List.nodup_cons.mpr ⟨hs.2, h0⟩
    · exact h0

/-- C3: every Item produced by the parse/normalize pipeline has a tags list
without duplicate entries, also after the section tag is inserted at the
front. -/
theorem c3_tags_nodup {δ : Type} (E : Ext δ) (entries : List RawEntry) :
    ∀ it ∈ parse_feed E entries, it.tags.Nodup := by
  intro it hit
  rw [parse_feed, List.mem_mergeSort] at hit
  obtain ⟨e, _, rfl⟩ := List.mem_map.mp hit
  exact mkItem_tags_nodup E e

/-- C3 (witness): the item produced from a field-less raw entry is in the
pipeline output and its tags are duplicate-free. -/
theorem c3_tags_nodup_witness :
    (⟨"", "", none, [], ""⟩ : Item) ∈ parse_feed extUnit [{}] ∧
    (Item.tags ⟨"", "", none, [], ""⟩).Nodup := by
  have hmem : (⟨"", "", none, [], ""⟩ : Item) ∈ parse_feed extUnit [{}] := by
    rw [parse_feed, List.mem_mergeSort]
    decide
  exact ⟨hmem, c3_tags_nodup extUnit [{}] ⟨"", "", none, [], ""⟩ hmem⟩

/-- C4: the output of the normalizer is sorted non-increasingly by
`published_ny`, with an absent `published_ny` compared as the empty string
(hence sorting last). -/
theorem c4_sorted_descending {δ : Type} (E : Ext δ) (entries : List RawEntry) :
    (parse_feed E entries).Pairwise (fun a b => sortKey b ≤ sortKey a) := by
  rw [parse_feed]
  refine List.Pairwise.imp (fun h => of_decide_eq_true h)
    (List.sorted_mergeSort ?_ ?_ (entries.map (mkItem E)))
  · intro a b c hab hbc
    simp only [decide_eq_true_eq] at *
    exact le_trans hbc hab
  · intro a b
    simpa using le_total (sortKey b) (sortKey a)

/-! ## Claim theorems for keyword tagging and the section tag -/

theorem pyDedupGo_eq_self (l : List String) :
    ∀ seen, (∀ t ∈ l, t ∉ seen) → l.Nodup → pyDedupGo seen l = l := by
  induction l with
  | nil => intro seen _ _; rfl
  | cons a l ih =>
    intro seen hs hn
    rw [pyDedupGo, if_neg (hs a (List.mem_cons_self a l))]
    congr 1
    refine ih (a :: seen) (fun t ht hmem => ?_) (List.Nodup.of_cons hn)
    rcases List.mem_cons.mp hmem with rfl | h2
    · exact (List.nodup_cons.mp hn).1 ht
    · exact hs t (List.mem_cons_of_mem a ht) h2

/-- C7: keyword tag extraction returns exactly the tags of the patterns that
match the lowercased text, in the fixed table's iteration order (the de-dup
pass provably removes nothing since the table's tags are distinct), the
result is duplicate-free, and the text "Gold rallies as Fed signals cut"
yields exactly `["#XAU", "#Fed"]` in that order. -/
theorem c7_extract_tags_table_order :
    (∀ text, extract_tags text =
        (KEYWORD_TAGS.filter (fun p => reSearchAlts p.1 (pyLower text))).map
          Prod.snd ∧
      (extract_tags text).Nodup) ∧
    extract_tags "Gold rallies as Fed signals cut" = ["#XAU", "#Fed"] := by
  have htable : (KEYWORD_TAGS.map Prod.snd).Nodup := by decide
  refine ⟨fun text => ?_, by decide⟩
  have hsub : ((KEYWORD_TAGS.filter
      (fun p => reSearchAlts p.1 (pyLower text))).map Prod.snd).Nodup :=
    htable.sublist ((List.filter_sublist _).map Prod.snd)
  exact ⟨pyDedupGo_eq_self _ [] (by simp) hsub, extract_tags_nodup text⟩

/-- Stated from the spec's words, for comparison with the source's
`_section_tag_from_url`: hyphens of the first path segment replaced by
underscores, the segment upper-cased, then prefixed with `#`. -/
def specSectionTag (first : List Char) : String :=
  "#" ++ ⟨(first.map (fun c => if c = '-' then '_' else c)).map Char.toUpper⟩

theorem section_tag_ne_empty {pathOf : String → String} {link s : String}
    (h : section_tag_from_url pathOf link = some s) : s ≠ "" := by
  simp only [section_tag_from_url] at h
  split_ifs at h
  injection h with h
  intro he
  rw [← h] at he
  simpa using congrArg String.data he

/-- C8: the section tag equals the spec's description (first path segment,
hyphens to underscores, upper-cased, `#`-prefixed) whenever the segment is
non-empty; when present and not already among the keyword tags it is
inserted at the front of the item's tag list; and a link whose path starts
with "central-bank" yields `#CENTRAL_BANK`. -/
theorem c8_section_tag_front :
    (∀ (pathOf : String → String) (link : String),
        firstSegment (pathOf link) ≠ [] →
        section_tag_from_url pathOf link =
          some (specSectionTag (firstSegment (pathOf link)))) ∧
    (∀ (δ : Type) (E : Ext δ) (e : RawEntry) (s : String),
        section_tag_from_url E.pathOf (pyStrip (e.link.getD "")) = some s →
        s ∉ extract_tags (allText E e) →
        (mkItem E e).tags = s :: extract_tags (allText E e)) ∧
    section_tag_from_url (fun _ => "/central-bank/ecb-preview")
      "https://investinglive.com/central-bank/ecb-preview" =
      some "#CENTRAL_BANK" := by
  refine ⟨?_, ?_, by decide⟩
  · intro pathOf link hne
    rw [section_tag_from_url]
    rw [if_neg (by simpa using hne)]
    have hhash : Char.toUpper '#' = '#' := rfl
    simp only [specSectionTag, List.map_cons, hhash]
    rfl
  · intro δ E e s hsec hnm
    have hne := section_tag_ne_empty hsec
    simp only [mkItem, hsec]
    rw [if_pos ⟨hne, hnm⟩]

/-- C8 (witness): the section-tag formula instantiated at a URL whose path is
`/central-bank/ecb-preview`. -/
theorem c8_section_tag_front_witness :
    firstSegment ((fun _ : String => "/central-bank/ecb-preview")
      "https://investinglive.com/central-bank/ecb-preview") ≠ [] ∧
    section_tag_from_url (fun _ => "/central-bank/ecb-preview")
      "https://investinglive.com/central-bank/ecb-preview" =
      some (specSectionTag (firstSegment
        ((fun _ : String => "/central-bank/ecb-preview")
          "https://investinglive.com/central-bank/ecb-preview"))) :=
  ⟨by decide,
    c8_section_tag_front.1 (fun _ => "/central-bank/ecb-preview")
      "https://investinglive.com/central-bank/ecb-preview" (by decide)⟩

end ILive
